import Mathlib

/-!
# Verification of a CHIP-8 interpreter

A shallow embedding of the interpreter core from `src/chip-8/`
(`display.rs`, `memory.rs`, `timer.rs`, `cpu.rs`, `emulator.rs`).

Machine bytes are modelled as `Nat` with explicit `% 256` / `% 65536`
where the Rust code performs wrapping arithmetic.  Fallible operations
(Rust `assert!` / `panic!` / slice-bound panics) are modelled with
`Option`: `none` is a fatal halt.  Fixed-size Rust arrays are modelled
as `List Nat` whose length is maintained by the operations.
-/

namespace Chip8

/-! ## Display (`display.rs`) -/

def FRAME_BUFFER_PIXEL_WIDTH : Nat := 64
def FRAME_BUFFER_PIXEL_HEIGHT : Nat := 32

structure FramebufferDisplay where
  framebuffer : List Nat
  dirty : Bool
  deriving DecidableEq, Repr

/-- `FramebufferDisplay::default`: all pixels 0, dirty = true. -/
def FramebufferDisplay.new : FramebufferDisplay :=
  { framebuffer := List.replicate (FRAME_BUFFER_PIXEL_WIDTH * FRAME_BUFFER_PIXEL_HEIGHT) 0
    dirty := true }

def FramebufferDisplay.is_dirty (d : FramebufferDisplay) : Bool := d.dirty

def FramebufferDisplay.clear_dirty (d : FramebufferDisplay) : FramebufferDisplay :=
  { d with dirty := false }

/-- `FramebufferDisplay::cls`: zero every pixel, set dirty. -/
def FramebufferDisplay.cls (d : FramebufferDisplay) : FramebufferDisplay :=
  { d with
      framebuffer := List.replicate (FRAME_BUFFER_PIXEL_WIDTH * FRAME_BUFFER_PIXEL_HEIGHT) 0
      dirty := true }

/-! ## Memory (`memory.rs`) -/

def MEMORY_SIZE : Nat := 4096
def FONTSET_BASE_ADDRESS : Nat := 0x50

def FONTSET : List Nat :=
  [0xF0, 0x90, 0x90, 0x90, 0xF0,
   0x20, 0x60, 0x20, 0x20, 0x70,
   0xF0, 0x10, 0xF0, 0x80, 0xF0,
   0xF0, 0x10, 0xF0, 0x10, 0xF0,
   0x90, 0x90, 0xF0, 0x10, 0x10,
   0xF0, 0x80, 0xF0, 0x10, 0xF0,
   0xF0, 0x80, 0xF0, 0x90, 0xF0,
   0xF0, 0x10, 0x20, 0x40, 0x40,
   0xF0, 0x90, 0xF0, 0x90, 0xF0,
   0xF0, 0x90, 0xF0, 0x10, 0xF0,
   0xF0, 0x90, 0xF0, 0x90, 0x90,
   0xE0, 0x90, 0xE0, 0x90, 0xE0,
   0xF0, 0x80, 0x80, 0x80, 0xF0,
   0xE0, 0x90, 0x90, 0x90, 0xE0,
   0xF0, 0x80, 0xF0, 0x80, 0xF0,
   0xF0, 0x80, 0xF0, 0x80, 0x80]

namespace Memory

/-- Unchecked range overwrite `m[base..base+s.length] := s`
(the slice assignment inside `Memory::new` / `copy_from_slice`). -/
def write_range (m : List Nat) (base : Nat) (s : List Nat) : List Nat :=
  m.take base ++ s ++ m.drop (base + s.length)

/-- `Memory::new`: zeroed 4096-byte store with the font preloaded at 0x50. -/
def new : List Nat :=
  write_range (List.replicate MEMORY_SIZE 0) FONTSET_BASE_ADDRESS FONTSET

/-- `Memory::font_address_for_character`. -/
def font_address_for_character (character : Nat) : Nat :=
  FONTSET_BASE_ADDRESS + character * 5

/-- `Memory::copy_from_slice`; the slice operation panics (`none`)
when the range escapes the 4096-byte store. -/
def copy_from_slice (m : List Nat) (base_address : Nat) (s : List Nat) :
    Option (List Nat) :=
  if base_address + s.length ≤ MEMORY_SIZE then some (write_range m base_address s)
  else none

/-- `Memory::as_slice`; panics (`none`) when the range escapes the store. -/
def as_slice (m : List Nat) (base_address length : Nat) : Option (List Nat) :=
  if base_address + length ≤ MEMORY_SIZE then some ((m.drop base_address).take length)
  else none

/-- `Memory::index` (read one byte); asserts the address is in range. -/
def read (m : List Nat) (address : Nat) : Option Nat :=
  if address < MEMORY_SIZE then some (m.getD address 0) else none

/-- `Memory::index_mut` (write one byte); asserts the address is in range. -/
def write (m : List Nat) (address value : Nat) : Option (List Nat) :=
  if address < MEMORY_SIZE then some (m.set address value) else none

end Memory

/-! ## Timer (`timer.rs`): the timer state is its 8-bit value. -/

namespace Timer

/-- `Timer::tick`: decrement when nonzero, else no-op. -/
def tick (value : Nat) : Nat := if value > 0 then value - 1 else value

def is_active (value : Nat) : Bool := value > 0

end Timer

/-! ## Input capability (`lib.rs` trait `Input`) -/

structure Input where
  is_key_down : Nat → Bool
  last_key_down : Option Nat

/-! ## Sprite drawing (`FramebufferDisplay::draw_sprite`)

The Rust code computes `x + x_bit` and `y + y_offset` in `u8`
(wrapping mod 256); since `256` is a multiple of both 64 and 32 the
subsequent `% 64` / `% 32` absorb that wrap, so the embedding takes
the remainder of the plain sum. -/

/-- One XOR-blit of `sprite`'s bit `x_bit` (MSB first):
`((sprite << x_bit) & 0x80) >> 7` with the `u8` truncation of the shift. -/
def spritePixel (sprite x_bit : Nat) : Nat :=
  (((sprite <<< x_bit) % 256) &&& 0x80) >>> 7

/-- The inner fold of `draw_sprite`: XOR-blit the 8 bits of one sprite
byte into framebuffer row `y_norm`, threading (framebuffer, collision). -/
def drawRow (x y_norm sprite : Nat) (acc : List Nat × Bool) : List Nat × Bool :=
  (List.range 8).foldl
    (fun (acc2 : List Nat × Bool) (x_bit : Nat) =>
      let x_norm := (x + x_bit) % FRAME_BUFFER_PIXEL_WIDTH
      let sprite_pixel := spritePixel sprite x_bit
      let buffer_index := y_norm * FRAME_BUFFER_PIXEL_WIDTH + x_norm
      let previous_display_value := acc2.1.getD buffer_index 0
      (acc2.1.set buffer_index (previous_display_value ^^^ sprite_pixel),
       if sprite_pixel > 0 then acc2.2 || decide (previous_display_value = 1)
       else acc2.2))
    acc

/-- The outer fold of `draw_sprite` over the enumerated sprite rows; each
row starts its inner collision accumulator at `false` and ORs it into the
running flag, exactly as the source folds do. -/
def drawRows (x y : Nat) (acc : List Nat × Bool) (rows : List (Nat × Nat)) :
    List Nat × Bool :=
  rows.foldl
    (fun (acc : List Nat × Bool) (p : Nat × Nat) =>
      let y_norm := (y + p.1) % FRAME_BUFFER_PIXEL_HEIGHT
      let inner := drawRow x y_norm p.2 (acc.1, false)
      (inner.1, acc.2 || inner.2))
    acc

/-- `FramebufferDisplay::draw_sprite`: XOR-blit `bytes_to_read` rows read
from memory at `base_address`, with wraparound; returns the updated
display and the collision flag, or `none` if the memory slice panics. -/
def FramebufferDisplay.draw_sprite (d : FramebufferDisplay) (x y : Nat)
    (base_address bytes_to_read : Nat) (memory : List Nat) :
    Option (FramebufferDisplay × Bool) :=
  let d := { d with dirty := true }
  match Memory.as_slice memory base_address bytes_to_read with
  | none => none
  | some sprites =>
    let r := drawRows x y (d.framebuffer, false) sprites.enum
    some ({ d with framebuffer := r.1 }, r.2)

/-! ## CPU (`cpu.rs`) -/

def STACK_SIZE : Nat := 128

structure CPU where
  v : List Nat
  i : Nat
  pc : Nat
  opcode : Nat
  stack : List Nat
  sp : Nat
  memory : List Nat
  display : FramebufferDisplay
  delay_timer : Nat
  sound_timer : Nat
  deriving DecidableEq, Repr

/-- `CPU::new`. -/
def CPU.new (memory : List Nat) (display : FramebufferDisplay) : CPU :=
  { v := List.replicate 16 0
    i := 0
    pc := 0x200
    opcode := 0
    stack := List.replicate STACK_SIZE 0
    sp := 0
    memory := memory
    display := display
    delay_timer := 0
    sound_timer := 0 }

/-- `CPU::stack_push`; asserts the stack is not full. -/
def CPU.stack_push (cpu : CPU) (value : Nat) : Option CPU :=
  if cpu.sp < STACK_SIZE then
    some { cpu with stack := cpu.stack.set cpu.sp value, sp := cpu.sp + 1 }
  else none

/-- `CPU::stack_pop`; asserts the stack is not empty. -/
def CPU.stack_pop (cpu : CPU) : Option (CPU × Nat) :=
  if cpu.sp ≠ 0 then
    some ({ cpu with sp := cpu.sp - 1 }, cpu.stack.getD (cpu.sp - 1) 0)
  else none

/-- The full opcode dispatch of `CPU::execute_opcode` (everything between
the `clear_dirty` prologue and the timer-tick epilogue).  Register indices
are always nibbles of the opcode and hence < 16, so the register-index
assertions of `Registers` can never fire and plain list access is used.
`rnd` is the byte produced by the injected random-number provider. -/
def CPU.dispatch (cpu : CPU) (opcode current_pc : Nat) (input : Input)
    (rnd : Nat) : Option (CPU × Nat) :=
  if opcode &&& 0xF000 = 0x0000 then
    if opcode &&& 0x000F = 0x0000 then
      some ({ cpu with display := cpu.display.cls }, current_pc + 2)
    else if opcode &&& 0x000F = 0x000E then
      cpu.stack_pop
    else none
  else if opcode &&& 0xF000 = 0x1000 then
    some (cpu, opcode &&& 0x0FFF)
  else if opcode &&& 0xF000 = 0x2000 then
    let address := opcode &&& 0x0FFF
    let address := if address < 0x200 then address + 0x200 else address
    (cpu.stack_push (current_pc + 2)).map (fun cpu' => (cpu', address))
  else if opcode &&& 0xF000 = 0x3000 then
    let register := (opcode &&& 0x0F00) >>> 8
    let value := opcode &&& 0x00FF
    some (cpu, if cpu.v.getD register 0 = value then current_pc + 4 else current_pc + 2)
  else if opcode &&& 0xF000 = 0x4000 then
    let register := (opcode &&& 0x0F00) >>> 8
    let value := opcode &&& 0x00FF
    some (cpu, if cpu.v.getD register 0 ≠ value then current_pc + 4 else current_pc + 2)
  else if opcode &&& 0xF000 = 0x5000 then
    let lhs_register := (opcode &&& 0x0F00) >>> 8
    let rhs_register := (opcode &&& 0x00F0) >>> 4
    some (cpu, if cpu.v.getD lhs_register 0 = cpu.v.getD rhs_register 0 then
      current_pc + 4 else current_pc + 2)
  else if opcode &&& 0xF000 = 0x6000 then
    let register := (opcode &&& 0x0F00) >>> 8
    let value := opcode &&& 0x00FF
    some ({ cpu with v := cpu.v.set register value }, current_pc + 2)
  else if opcode &&& 0xF000 = 0x7000 then
    let register := (opcode &&& 0x0F00) >>> 8
    let value := opcode &&& 0x00FF
    let v2 := cpu.v.set register ((cpu.v.getD register 0 + value) % 256)
    some ({ cpu with v := v2 }, current_pc + 2)
  else if opcode &&& 0xF000 = 0x8000 then
    let lhs_register := (opcode &&& 0x0F00) >>> 8
    let rhs_register := (opcode &&& 0x00F0) >>> 4
    if opcode &&& 0x000F = 0x0000 then
      let v2 := cpu.v.set lhs_register (cpu.v.getD rhs_register 0)
      some ({ cpu with v := v2 }, current_pc + 2)
    else if opcode &&& 0x000F = 0x0001 then
      let v2 := cpu.v.set lhs_register (cpu.v.getD lhs_register 0 ||| cpu.v.getD rhs_register 0)
      some ({ cpu with v := v2 }, current_pc + 2)
    else if opcode &&& 0x000F = 0x0002 then
      let v2 := cpu.v.set lhs_register (cpu.v.getD lhs_register 0 &&& cpu.v.getD rhs_register 0)
      some ({ cpu with v := v2 }, current_pc + 2)
    else if opcode &&& 0x000F = 0x0003 then
      let v2 := cpu.v.set lhs_register (cpu.v.getD lhs_register 0 ^^^ cpu.v.getD rhs_register 0)
      some ({ cpu with v := v2 }, current_pc + 2)
    else if opcode &&& 0x000F = 0x0004 then
      -- the flag is written first; the operands are then re-read
      let will_overflow := cpu.v.getD lhs_register 0 + cpu.v.getD rhs_register 0 > 255
      let v1 := cpu.v.set 0xF (if will_overflow then 1 else 0)
      let v2 := v1.set lhs_register ((v1.getD lhs_register 0 + v1.getD rhs_register 0) % 256)
      some ({ cpu with v := v2 }, current_pc + 2)
    else if opcode &&& 0x000F = 0x0005 then
      let v1 := cpu.v.set 0xF (if cpu.v.getD lhs_register 0 > cpu.v.getD rhs_register 0 then 1 else 0)
      let v2 := v1.set lhs_register ((v1.getD lhs_register 0 + 256 - v1.getD rhs_register 0) % 256)
      some ({ cpu with v := v2 }, current_pc + 2)
    else if opcode &&& 0x000F = 0x0006 then
      let v1 := cpu.v.set 0xF (cpu.v.getD lhs_register 0 &&& 0x1)
      let v2 := v1.set lhs_register (v1.getD lhs_register 0 >>> 1)
      some ({ cpu with v := v2 }, current_pc + 2)
    else if opcode &&& 0x000F = 0x0007 then
      let v1 := cpu.v.set 0xF (if cpu.v.getD rhs_register 0 > cpu.v.getD lhs_register 0 then 1 else 0)
      let v2 := v1.set lhs_register ((v1.getD rhs_register 0 + 256 - v1.getD lhs_register 0) % 256)
      some ({ cpu with v := v2 }, current_pc + 2)
    else if opcode &&& 0x000F = 0x000E then
      let v1 := cpu.v.set 0xF ((cpu.v.getD lhs_register 0 &&& 0x80) >>> 7)
      let v2 := v1.set lhs_register ((v1.getD lhs_register 0 <<< 1) % 256)
      some ({ cpu with v := v2 }, current_pc + 2)
    else none
  else if opcode &&& 0xF000 = 0x9000 then
    let lhs_register := (opcode &&& 0x0F00) >>> 8
    let rhs_register := (opcode &&& 0x00F0) >>> 4
    some (cpu, if cpu.v.getD lhs_register 0 ≠ cpu.v.getD rhs_register 0 then
      current_pc + 4 else current_pc + 2)
  else if opcode &&& 0xF000 = 0xA000 then
    some ({ cpu with i := opcode &&& 0x0FFF }, current_pc + 2)
  else if opcode &&& 0xF000 = 0xB000 then
    some (cpu, (opcode &&& 0x0FFF) + cpu.v.getD 0 0)
  else if opcode &&& 0xF000 = 0xC000 then
    let mask := opcode &&& 0x00FF
    let target_register := (opcode &&& 0x0F00) >>> 8
    some ({ cpu with v := cpu.v.set target_register (mask &&& rnd) }, current_pc + 2)
  else if opcode &&& 0xF000 = 0xD000 then
    let x := cpu.v.getD ((opcode &&& 0x0F00) >>> 8) 0
    let y := cpu.v.getD ((opcode &&& 0x00F0) >>> 4) 0
    let n := opcode &&& 0x000F
    (cpu.display.draw_sprite x y cpu.i n cpu.memory).map
      (fun r =>
        let v2 := cpu.v.set 0xF (if r.2 then 1 else 0)
        ({ cpu with display := r.1, v := v2 }, current_pc + 2))
  else if opcode &&& 0xF000 = 0xE000 then
    let register_value := cpu.v.getD ((opcode &&& 0x0F00) >>> 8) 0
    if opcode &&& 0x00FF = 0x009E then
      some (cpu, if input.is_key_down register_value then current_pc + 4 else current_pc + 2)
    else if opcode &&& 0x00FF = 0x00A1 then
      some (cpu, if input.is_key_down register_value then current_pc + 2 else current_pc + 4)
    else none
  else if opcode &&& 0xF000 = 0xF000 then
    let register := (opcode &&& 0x0F00) >>> 8
    let blocked : Option (CPU × Bool) :=
      if opcode &&& 0x00FF = 0x0007 then
        some ({ cpu with v := cpu.v.set register cpu.delay_timer }, false)
      else if opcode &&& 0x00FF = 0x000A then
        match input.last_key_down with
        | some key => some ({ cpu with v := cpu.v.set register key }, false)
        | none => some (cpu, true)
      else if opcode &&& 0x00FF = 0x0015 then
        some ({ cpu with delay_timer := cpu.v.getD register 0 }, false)
      else if opcode &&& 0x00FF = 0x0018 then
        some ({ cpu with sound_timer := cpu.v.getD register 0 }, false)
      else if opcode &&& 0x00FF = 0x001E then
        some ({ cpu with i := (cpu.i + cpu.v.getD register 0) % 65536 }, false)
      else if opcode &&& 0x00FF = 0x0029 then
        let i2 := Memory.font_address_for_character (cpu.v.getD register 0)
        some ({ cpu with i := i2 }, false)
      else if opcode &&& 0x00FF = 0x0033 then
        let value := cpu.v.getD register 0
        (Memory.write cpu.memory cpu.i (value / 100)).bind (fun m1 =>
          (Memory.write m1 (cpu.i + 1) ((value / 10) % 10)).bind (fun m2 =>
            (Memory.write m2 (cpu.i + 2) ((value % 100) % 10)).map (fun m3 =>
              ({ cpu with memory := m3 }, false))))
      else if opcode &&& 0x00FF = 0x0055 then
        (Memory.copy_from_slice cpu.memory cpu.i (cpu.v.take (register + 1))).map
          (fun m' => ({ cpu with memory := m' }, false))
      else if opcode &&& 0x00FF = 0x0065 then
        (Memory.as_slice cpu.memory cpu.i (register + 1)).map
          (fun s => ({ cpu with v := s ++ cpu.v.drop s.length }, false))
      else none
    blocked.map (fun r => (r.1, if !r.2 then current_pc + 2 else current_pc))
  else none

/-- `CPU::execute_opcode`: clear the dirty flag, dispatch, then tick both
timers when requested.  A `panic!`/assert anywhere gives `none` (and in
particular skips the timer tick, as the Rust process dies). -/
def CPU.execute_opcode (cpu : CPU) (opcode current_pc : Nat) (tick_timers : Bool)
    (input : Input) (rnd : Nat) : Option (CPU × Nat) :=
  match CPU.dispatch { cpu with display := cpu.display.clear_dirty } opcode current_pc
      input rnd with
  | none => none
  | some (c, next_pc) =>
    some ((if tick_timers then
        { c with delay_timer := Timer.tick c.delay_timer,
                 sound_timer := Timer.tick c.sound_timer }
      else c), next_pc)

/-- `CPU::cycle`: fetch the big-endian opcode at `pc`, execute it, and
store the produced next program counter. -/
def CPU.cycle (cpu : CPU) (tick_timers : Bool) (input : Input) (rnd : Nat) :
    Option CPU :=
  match Memory.read cpu.memory cpu.pc, Memory.read cpu.memory ((cpu.pc + 1) % 65536) with
  | some hi, some lo =>
    let opcode := (hi <<< 8) ||| lo
    match CPU.execute_opcode { cpu with opcode := opcode } opcode cpu.pc tick_timers
        input rnd with
    | none => none
    | some (c, next_pc) => some { c with pc := next_pc }
  | _, _ => none

/-- `CPU::reset`: clear the display, then rebuild from `CPU::new`
keeping the display object. -/
def CPU.reset (cpu : CPU) (memory : List Nat) : CPU :=
  CPU.new memory cpu.display.cls

/-! ## Emulator / Session (`emulator.rs`) -/

structure Emulator where
  cpu : CPU
  current_rom : List Nat
  is_initial_state : Bool

/-- `Emulator::new`: fresh memory with the ROM copied at 0x200. -/
def Emulator.new (display : FramebufferDisplay) (rom : List Nat) : Option Emulator :=
  (Memory.copy_from_slice Memory.new 0x200 rom).map (fun memory =>
    { cpu := CPU.new memory display
      current_rom := rom
      is_initial_state := true })

/-- `Emulator::reset`: rebuild memory and CPU from the stored ROM. -/
def Emulator.reset (e : Emulator) : Option Emulator :=
  (Memory.copy_from_slice Memory.new 0x200 e.current_rom).map (fun memory =>
    { cpu := e.cpu.reset memory
      current_rom := e.current_rom
      is_initial_state := true })

/-- `Emulator::cycle`: clear the initial flag and delegate. -/
def Emulator.cycle (e : Emulator) (should_tick_timer : Bool) (input : Input)
    (rnd : Nat) : Option Emulator :=
  (CPU.cycle e.cpu should_tick_timer input rnd).map (fun c =>
    { e with cpu := c, is_initial_state := false })


/-! ## Concrete fixtures for witnesses and counterexamples -/

/-- An input device with no key reported. -/
def inp0 : Input := ⟨fun _ => false, none⟩

/-- An input device reporting key 7. -/
def inpKey7 : Input := ⟨fun _ => false, some 7⟩

/-- A freshly constructed CPU over a fresh memory and display. -/
def cpu0 : CPU := CPU.new Memory.new FramebufferDisplay.new

/-- A fresh CPU with `V0 = V1 = 5`. -/
def cpu5 : CPU := { cpu0 with v := ((List.replicate 16 0).set 0 5).set 1 5 }

/-- A fresh CPU with `VF = 200` and `V0 = 100`. -/
def cpu6 : CPU := { cpu0 with v := ((List.replicate 16 0).set 0xF 200).set 0 100 }

/-- A fresh CPU whose delay timer holds 5. -/
def cpuT : CPU := { cpu0 with delay_timer := 5 }

/-- A 4096-byte memory whose byte 0 is the one-row sprite `0x80`. -/
def mem1 : List Nat := (List.replicate 4096 0).set 0 0x80

/-- An all-zero 4096-byte memory. -/
def mem0 : List Nat := List.replicate 4096 0

/-! ## Proof infrastructure: flattened XOR-blit writes

`draw_sprite` is re-expressed as a single left fold of pixel writes
`(buffer index, sprite bit)` over a flattened write list, which is then
characterised pointwise. -/

/-- One pixel write of the blit: XOR the bit in and accumulate collision. -/
def blitStep (acc : List Nat × Bool) (w : Nat × Nat) : List Nat × Bool :=
  (acc.1.set w.1 (acc.1.getD w.1 0 ^^^ w.2),
   if w.2 > 0 then acc.2 || decide (acc.1.getD w.1 0 = 1) else acc.2)

/-- Fold a list of pixel writes over (framebuffer, collision flag). -/
def blit (acc : List Nat × Bool) (ws : List (Nat × Nat)) : List Nat × Bool :=
  ws.foldl blitStep acc

/-- The 8 writes of one sprite byte at framebuffer row `y_norm`. -/
def rowWrites (x y_norm sprite : Nat) : List (Nat × Nat) :=
  (List.range 8).map (fun x_bit =>
    (y_norm * 64 + (x + x_bit) % 64, spritePixel sprite x_bit))

/-- All writes of a sprite whose rows are numbered from `n`. -/
def spriteWritesFrom (x y n : Nat) : List Nat → List (Nat × Nat)
  | [] => []
  | sprite :: rest =>
    rowWrites x ((y + n) % 32) sprite ++ spriteWritesFrom x y (n + 1) rest

/-- A concrete emulator session holding a two-byte ROM. -/
def em0 : Emulator :=
  { cpu := cpu0, current_rom := [0x6A, 0x07], is_initial_state := false }

/-! ## List access helpers -/

theorem getD_set_self (l : List Nat) (i a : Nat) (h : i < l.length) :
    (l.set i a).getD i 0 = a := by
  simp [List.getD_eq_getElem?_getD, List.getElem?_set_self h]

theorem getD_set_of_ne (l : List Nat) {i j : Nat} (a : Nat) (h : i ≠ j) :
    (l.set i a).getD j 0 = l.getD j 0 := by
  simp [List.getD_eq_getElem?_getD, List.getElem?_set_ne h]

/-! ## Proof infrastructure: inversion helpers for the CPU dispatch -/

theorem stack_pop_timers {cpu c : CPU} {a : Nat} (h : cpu.stack_pop = some (c, a)) :
    c.delay_timer = cpu.delay_timer ∧ c.sound_timer = cpu.sound_timer := by
  simp only [CPU.stack_pop, Option.ite_none_right_eq_some, Option.some.injEq, Prod.mk.injEq] at h
  obtain ⟨-, hc, -⟩ := h
  subst hc
  exact ⟨rfl, rfl⟩

theorem stack_push_timers {cpu c : CPU} {a : Nat} (h : cpu.stack_push a = some c) :
    c.delay_timer = cpu.delay_timer ∧ c.sound_timer = cpu.sound_timer := by
  simp only [CPU.stack_push, Option.ite_none_right_eq_some, Option.some.injEq] at h
  obtain ⟨-, hc⟩ := h
  subst hc
  exact ⟨rfl, rfl⟩

set_option maxHeartbeats 1600000 in
/-- Inversion of `CPU.dispatch` for the two timers: the instruction body
leaves both timers unchanged except for the delay-write (FX15) and
sound-write (FX18) instructions. -/
theorem dispatch_timer_char (cpu : CPU) (op pc : Nat) (input : Input) (rnd : Nat)
    (c : CPU) (npc : Nat)
    (h : CPU.dispatch cpu op pc input rnd = some (c, npc)) :
    c.delay_timer = (if op &&& 0xF000 = 0xF000 ∧ op &&& 0x00FF = 0x0015
        then cpu.v.getD ((op &&& 0x0F00) >>> 8) 0 else cpu.delay_timer) ∧
    c.sound_timer = (if op &&& 0xF000 = 0xF000 ∧ op &&& 0x00FF = 0x0018
        then cpu.v.getD ((op &&& 0x0F00) >>> 8) 0 else cpu.sound_timer) := by
  by_cases hf0 : op &&& 0xF000 = 0x0000
  · simp only [CPU.dispatch, hf0, Nat.reduceEqDiff, reduceIte] at h
    by_cases hs0 : op &&& 0x000F = 0x0000
    · simp only [hs0, Nat.reduceEqDiff, reduceIte, Option.some.injEq, Prod.mk.injEq] at h
      obtain ⟨hc, -⟩ := h; subst hc; simp [hf0]
    by_cases hsE : op &&& 0x000F = 0x000E
    · simp only [hs0, hsE, Nat.reduceEqDiff, reduceIte] at h
      obtain ⟨h1, h2⟩ := stack_pop_timers h
      simp [hf0, h1, h2]
    · simp only [hs0, hsE, Nat.reduceEqDiff, reduceIte] at h
      exact Option.noConfusion h
  by_cases hf1 : op &&& 0xF000 = 0x1000
  · simp only [CPU.dispatch, hf0, hf1, Nat.reduceEqDiff, reduceIte, Option.some.injEq,
      Prod.mk.injEq] at h
    obtain ⟨hc, -⟩ := h; subst hc; simp [hf1]
  by_cases hf2 : op &&& 0xF000 = 0x2000
  · simp only [CPU.dispatch, hf0, hf1, hf2, Nat.reduceEqDiff, reduceIte,
      Option.map_eq_some'] at h
    obtain ⟨c0, hpush, hg⟩ := h
    simp only [Prod.mk.injEq] at hg
    obtain ⟨hc, -⟩ := hg; subst hc
    obtain ⟨h1, h2⟩ := stack_push_timers hpush
    simp [hf2, h1, h2]
  by_cases hf3 : op &&& 0xF000 = 0x3000
  · simp only [CPU.dispatch, hf0, hf1, hf2, hf3, Nat.reduceEqDiff, reduceIte,
      Option.some.injEq, Prod.mk.injEq] at h
    obtain ⟨hc, -⟩ := h; subst hc; simp [hf3]
  by_cases hf4 : op &&& 0xF000 = 0x4000
  · simp only [CPU.dispatch, hf0, hf1, hf2, hf3, hf4, Nat.reduceEqDiff, reduceIte,
      Option.some.injEq, Prod.mk.injEq] at h
    obtain ⟨hc, -⟩ := h; subst hc; simp [hf4]
  by_cases hf5 : op &&& 0xF000 = 0x5000
  · simp only [CPU.dispatch, hf0, hf1, hf2, hf3, hf4, hf5, Nat.reduceEqDiff, reduceIte,
      Option.some.injEq, Prod.mk.injEq] at h
    obtain ⟨hc, -⟩ := h; subst hc; simp [hf5]
  by_cases hf6 : op &&& 0xF000 = 0x6000
  · simp only [CPU.dispatch, hf0, hf1, hf2, hf3, hf4, hf5, hf6, Nat.reduceEqDiff, reduceIte,
      Option.some.injEq, Prod.mk.injEq] at h
    obtain ⟨hc, -⟩ := h; subst hc; simp [hf6]
  by_cases hf7 : op &&& 0xF000 = 0x7000
  · simp only [CPU.dispatch, hf0, hf1, hf2, hf3, hf4, hf5, hf6, hf7, Nat.reduceEqDiff,
      reduceIte, Option.some.injEq, Prod.mk.injEq] at h
    obtain ⟨hc, -⟩ := h; subst hc; simp [hf7]
  by_cases hf8 : op &&& 0xF000 = 0x8000
  · simp only [CPU.dispatch, hf0, hf1, hf2, hf3, hf4, hf5, hf6, hf7, hf8, Nat.reduceEqDiff,
      reduceIte] at h
    by_cases hs0 : op &&& 0x000F = 0x0000
    · simp only [hs0, Nat.reduceEqDiff, reduceIte, Option.some.injEq, Prod.mk.injEq] at h
      obtain ⟨hc, -⟩ := h; subst hc; simp [hf8]
    by_cases hs1 : op &&& 0x000F = 0x0001
    · simp only [hs0, hs1, Nat.reduceEqDiff, reduceIte, Option.some.injEq, Prod.mk.injEq] at h
      obtain ⟨hc, -⟩ := h; subst hc; simp [hf8]
    by_cases hs2 : op &&& 0x000F = 0x0002
    · simp only [hs0, hs1, hs2, Nat.reduceEqDiff, reduceIte, Option.some.injEq,
        Prod.mk.injEq] at h
      obtain ⟨hc, -⟩ := h; subst hc; simp [hf8]
    by_cases hs3 : op &&& 0x000F = 0x0003
    · simp only [hs0, hs1, hs2, hs3, Nat.reduceEqDiff, reduceIte, Option.some.injEq,
        Prod.mk.injEq] at h
      obtain ⟨hc, -⟩ := h; subst hc; simp [hf8]
    by_cases hs4 : op &&& 0x000F = 0x0004
    · simp only [hs0, hs1, hs2, hs3, hs4, Nat.reduceEqDiff, reduceIte, Option.some.injEq,
        Prod.mk.injEq] at h
      obtain ⟨hc, -⟩ := h; subst hc; simp [hf8]
    by_cases hs5 : op &&& 0x000F = 0x0005
    · simp only [hs0, hs1, hs2, hs3, hs4, hs5, Nat.reduceEqDiff, reduceIte, Option.some.injEq,
        Prod.mk.injEq] at h
      obtain ⟨hc, -⟩ := h; subst hc; simp [hf8]
    by_cases hs6 : op &&& 0x000F = 0x0006
    · simp only [hs0, hs1, hs2, hs3, hs4, hs5, hs6, Nat.reduceEqDiff, reduceIte,
        Option.some.injEq, Prod.mk.injEq] at h
      obtain ⟨hc, -⟩ := h; subst hc; simp [hf8]
    by_cases hs7 : op &&& 0x000F = 0x0007
    · simp only [hs0, hs1, hs2, hs3, hs4, hs5, hs6, hs7, Nat.reduceEqDiff, reduceIte,
        Option.some.injEq, Prod.mk.injEq] at h
      obtain ⟨hc, -⟩ := h; subst hc; simp [hf8]
    by_cases hsE : op &&& 0x000F = 0x000E
    · simp only [hs0, hs1, hs2, hs3, hs4, hs5, hs6, hs7, hsE, Nat.reduceEqDiff, reduceIte,
        Option.some.injEq, Prod.mk.injEq] at h
      obtain ⟨hc, -⟩ := h; subst hc; simp [hf8]
    · simp only [hs0, hs1, hs2, hs3, hs4, hs5, hs6, hs7, hsE, Nat.reduceEqDiff,
        reduceIte] at h
      exact Option.noConfusion h
  by_cases hf9 : op &&& 0xF000 = 0x9000
  · simp only [CPU.dispatch, hf0, hf1, hf2, hf3, hf4, hf5, hf6, hf7, hf8, hf9,
      Nat.reduceEqDiff, reduceIte, Option.some.injEq, Prod.mk.injEq] at h
    obtain ⟨hc, -⟩ := h; subst hc; simp [hf9]
  by_cases hfA : op &&& 0xF000 = 0xA000
  · simp only [CPU.dispatch, hf0, hf1, hf2, hf3, hf4, hf5, hf6, hf7, hf8, hf9, hfA,
      Nat.reduceEqDiff, reduceIte, Option.some.injEq, Prod.mk.injEq] at h
    obtain ⟨hc, -⟩ := h; subst hc; simp [hfA]
  by_cases hfB : op &&& 0xF000 = 0xB000
  · simp only [CPU.dispatch, hf0, hf1, hf2, hf3, hf4, hf5, hf6, hf7, hf8, hf9, hfA, hfB,
      Nat.reduceEqDiff, reduceIte, Option.some.injEq, Prod.mk.injEq] at h
    obtain ⟨hc, -⟩ := h; subst hc; simp [hfB]
  by_cases hfC : op &&& 0xF000 = 0xC000
  · simp only [CPU.dispatch, hf0, hf1, hf2, hf3, hf4, hf5, hf6, hf7, hf8, hf9, hfA, hfB, hfC,
      Nat.reduceEqDiff, reduceIte, Option.some.injEq, Prod.mk.injEq] at h
    obtain ⟨hc, -⟩ := h; subst hc; simp [hfC]
  by_cases hfD : op &&& 0xF000 = 0xD000
  · simp only [CPU.dispatch, hf0, hf1, hf2, hf3, hf4, hf5, hf6, hf7, hf8, hf9, hfA, hfB, hfC,
      hfD, Nat.reduceEqDiff, reduceIte, Option.map_eq_some'] at h
    obtain ⟨r, -, hg⟩ := h
    simp only [Prod.mk.injEq] at hg
    obtain ⟨hc, -⟩ := hg; subst hc; simp [hfD]
  by_cases hfE : op &&& 0xF000 = 0xE000
  · simp only [CPU.dispatch, hf0, hf1, hf2, hf3, hf4, hf5, hf6, hf7, hf8, hf9, hfA, hfB, hfC,
      hfD, hfE, Nat.reduceEqDiff, reduceIte] at h
    by_cases hs9E : op &&& 0x00FF = 0x009E
    · simp only [hs9E, Nat.reduceEqDiff, reduceIte, Option.some.injEq, Prod.mk.injEq] at h
      obtain ⟨hc, -⟩ := h; subst hc; simp [hfE]
    by_cases hsA1 : op &&& 0x00FF = 0x00A1
    · simp only [hs9E, hsA1, Nat.reduceEqDiff, reduceIte, Option.some.injEq,
        Prod.mk.injEq] at h
      obtain ⟨hc, -⟩ := h; subst hc; simp [hfE]
    · simp only [hs9E, hsA1, Nat.reduceEqDiff, reduceIte] at h
      exact Option.noConfusion h
  by_cases hfF : op &&& 0xF000 = 0xF000
  · simp only [CPU.dispatch, hf0, hf1, hf2, hf3, hf4, hf5, hf6, hf7, hf8, hf9, hfA, hfB, hfC,
      hfD, hfE, hfF, Nat.reduceEqDiff, reduceIte] at h
    by_cases hs07 : op &&& 0x00FF = 0x0007
    · simp only [hs07, Nat.reduceEqDiff, reduceIte, Option.map_eq_some', Option.some.injEq,
        Prod.mk.injEq] at h
      obtain ⟨r, hr, hc, -⟩ := h
      subst hr; subst hc; simp [hfF, hs07]
    by_cases hs0A : op &&& 0x00FF = 0x000A
    · simp only [hs07, hs0A, Nat.reduceEqDiff, reduceIte, Option.map_eq_some',
        Option.some.injEq, Prod.mk.injEq] at h
      rcases hk : input.last_key_down with - | key <;>
        simp only [hk, Option.some.injEq, Prod.mk.injEq] at h <;>
        obtain ⟨r, hr, hc, -⟩ := h <;> subst hr <;> subst hc <;> simp [hfF, hs0A]
    by_cases hs15 : op &&& 0x00FF = 0x0015
    · simp only [hs07, hs0A, hs15, Nat.reduceEqDiff, reduceIte, Option.map_eq_some',
        Option.some.injEq, Prod.mk.injEq] at h
      obtain ⟨r, hr, hc, -⟩ := h
      subst hr; subst hc; simp [hfF, hs15, hs07, hs0A]
    by_cases hs18 : op &&& 0x00FF = 0x0018
    · simp only [hs07, hs0A, hs15, hs18, Nat.reduceEqDiff, reduceIte, Option.map_eq_some',
        Option.some.injEq, Prod.mk.injEq] at h
      obtain ⟨r, hr, hc, -⟩ := h
      subst hr; subst hc; simp [hfF, hs18, hs15, hs07, hs0A]
    by_cases hs1E : op &&& 0x00FF = 0x001E
    · simp only [hs07, hs0A, hs15, hs18, hs1E, Nat.reduceEqDiff, reduceIte,
        Option.map_eq_some', Option.some.injEq, Prod.mk.injEq] at h
      obtain ⟨r, hr, hc, -⟩ := h
      subst hr; subst hc; simp [hfF, hs1E, hs18, hs15, hs07, hs0A]
    by_cases hs29 : op &&& 0x00FF = 0x0029
    · simp only [hs07, hs0A, hs15, hs18, hs1E, hs29, Nat.reduceEqDiff, reduceIte,
        Option.map_eq_some', Option.some.injEq, Prod.mk.injEq] at h
      obtain ⟨r, hr, hc, -⟩ := h
      subst hr; subst hc; simp [hfF, hs29, hs1E, hs18, hs15, hs07, hs0A]
    by_cases hs33 : op &&& 0x00FF = 0x0033
    · simp only [hs07, hs0A, hs15, hs18, hs1E, hs29, hs33, Nat.reduceEqDiff, reduceIte,
        Option.map_eq_some', Option.bind_eq_some, Option.some.injEq, Prod.mk.injEq] at h
      obtain ⟨r, ⟨m1, -, m2, -, m3, -, hr⟩, hc, -⟩ := h
      subst hr; subst hc; simp [hfF, hs33, hs29, hs1E, hs18, hs15, hs07, hs0A]
    by_cases hs55 : op &&& 0x00FF = 0x0055
    · simp only [hs07, hs0A, hs15, hs18, hs1E, hs29, hs33, hs55, Nat.reduceEqDiff, reduceIte,
        Option.map_eq_some', Option.some.injEq, Prod.mk.injEq] at h
      obtain ⟨r, ⟨m1, -, hr⟩, hc, -⟩ := h
      subst hr; subst hc; simp [hfF, hs55, hs33, hs29, hs1E, hs18, hs15, hs07, hs0A]
    by_cases hs65 : op &&& 0x00FF = 0x0065
    · simp only [hs07, hs0A, hs15, hs18, hs1E, hs29, hs33, hs55, hs65, Nat.reduceEqDiff,
        reduceIte, Option.map_eq_some', Option.some.injEq, Prod.mk.injEq] at h
      obtain ⟨r, ⟨m1, -, hr⟩, hc, -⟩ := h
      subst hr; subst hc; simp [hfF, hs65, hs55, hs33, hs29, hs1E, hs18, hs15, hs07, hs0A]
    · simp only [hs07, hs0A, hs15, hs18, hs1E, hs29, hs33, hs55, hs65, Nat.reduceEqDiff,
        reduceIte] at h
      exact Option.noConfusion h
  · simp only [CPU.dispatch, hf0, hf1, hf2, hf3, hf4, hf5, hf6, hf7, hf8, hf9, hfA, hfB, hfC,
      hfD, hfE, hfF, Nat.reduceEqDiff, reduceIte] at h
    exact Option.noConfusion h


/-! ## Claims C2, C3, C4, C5, C6, C10 -/

/-- Claim C2: for the block-until-key instruction FX0A, on every cycle in
which the input reports no currently-pressed key the program counter is
left unchanged (so the same instruction re-executes next cycle); on a
cycle where a key is reported, VX is set to that key and the program
counter advances by 2, exactly once. -/
theorem C2_block_until_key (cpu : CPU) (op pc : Nat) (tick : Bool) (input : Input)
    (rnd : Nat) (hfam : op &&& 0xF000 = 0xF000) (hsub : op &&& 0x00FF = 0x000A) :
    (input.last_key_down = none →
      ∃ c', CPU.execute_opcode cpu op pc tick input rnd = some (c', pc) ∧ c'.v = cpu.v) ∧
    (∀ key, input.last_key_down = some key →
      ∃ c', CPU.execute_opcode cpu op pc tick input rnd = some (c', pc + 2) ∧
        c'.v = cpu.v.set ((op &&& 0x0F00) >>> 8) key) := by
  constructor
  · intro hk
    simp [CPU.execute_opcode, CPU.dispatch, hfam, hsub, hk]
    split <;> rfl
  · intro key hk
    simp [CPU.execute_opcode, CPU.dispatch, hfam, hsub, hk]
    split <;> rfl

theorem C2_block_until_key_witness :
    ((0xF30A : Nat) &&& 0xF000 = 0xF000) ∧
    (∃ c', CPU.execute_opcode cpu0 0xF30A 0x234 false inp0 0 = some (c', 0x234) ∧
      c'.v = cpu0.v) ∧
    (∃ c', CPU.execute_opcode cpu0 0xF30A 0x234 false inpKey7 0 = some (c', 0x236) ∧
      c'.v = cpu0.v.set 3 7) :=
  ⟨by decide,
   (C2_block_until_key cpu0 0xF30A 0x234 false inp0 0 (by decide) (by decide)).1 rfl,
   by
     have := (C2_block_until_key cpu0 0xF30A 0x234 false inpKey7 0 (by decide)
       (by decide)).2 7 rfl
     simpa using this⟩

/-- Claim C3, counterexample: the call opcode `0x2000` (NNN = 0x000)
executed at pc = 0x200 sets the program counter to 0x200, not to
NNN = 0x000 as the claim states for every 12-bit address. -/
theorem C3_call_counterexample :
    (CPU.execute_opcode cpu0 0x2000 0x200 false inp0 0).map Prod.snd = some 0x200 ∧
    ¬ (CPU.execute_opcode cpu0 0x2000 0x200 false inp0 0).map Prod.snd
        = some (0x2000 &&& 0x0FFF) := by
  decide

/-- Claim C3 (amended): a call instruction 2NNN executed at pc pushes the
return address pc + 2 onto the stack and sets the program counter to NNN
when NNN ≥ 0x200, and to NNN + 0x200 when NNN < 0x200. -/
theorem C3_call_semantics (cpu : CPU) (op pc : Nat) (tick : Bool) (input : Input)
    (rnd : Nat) (hf : op &&& 0xF000 = 0x2000) (hsp : cpu.sp < STACK_SIZE) :
    ∃ c', CPU.execute_opcode cpu op pc tick input rnd
        = some (c', if op &&& 0x0FFF < 0x200 then (op &&& 0x0FFF) + 0x200 else op &&& 0x0FFF)
      ∧ c'.stack = cpu.stack.set cpu.sp (pc + 2) ∧ c'.sp = cpu.sp + 1 := by
  simp [CPU.execute_opcode, CPU.dispatch, hf, CPU.stack_push, hsp]
  split <;> simp

theorem C3_call_semantics_witness :
    cpu0.sp < STACK_SIZE ∧
    ∃ c', CPU.execute_opcode cpu0 0x2345 0x200 false inp0 0 = some (c', 0x345)
      ∧ c'.stack = cpu0.stack.set cpu0.sp 0x202 ∧ c'.sp = cpu0.sp + 1 :=
  ⟨by decide, by
    have := C3_call_semantics cpu0 0x2345 0x200 false inp0 0 (by decide) (by decide)
    simpa using this⟩

/-- Claim C4: the code evaluated at the failing input `VX = VY = 5` with
opcode 8XY5 (and with 8XY7): subtraction of equal operands has no borrow,
yet the flag register is set to 0 because the code tests strict
greater-than; the claim (and the code's own comment) require 1. -/
theorem C4_borrow_flag_at_equal_operands :
    (CPU.execute_opcode cpu5 0x8015 0x200 false inp0 0).map
        (fun p => (p.1.v.getD 0xF 0, p.1.v.getD 0 0, p.2)) = some (0, 0, 0x202) ∧
    (CPU.execute_opcode cpu5 0x8107 0x200 false inp0 0).map
        (fun p => (p.1.v.getD 0xF 0, p.1.v.getD 1 0, p.2)) = some (0, 0, 0x202) := by
  decide


/-- Claim C5, counterexample: opcode 0x5011 (form 5XY1) matches no case of
the spec's instruction table within its family, yet the interpreter does
not halt: it executes it as the skip-if-equal instruction 5XY0 (fresh CPU,
V0 = V1, so the counter skips to pc + 4 = 0x204). -/
theorem C5_counterexample :
    ¬ CPU.execute_opcode cpu0 0x5011 0x200 false inp0 0 = none ∧
    (CPU.execute_opcode cpu0 0x5011 0x200 false inp0 0).map Prod.snd = some 0x204 := by
  decide

/-- Claim C5 (amended): in the families decoded by sub-opcode — 0x0NNN
(low nibble), 0x8XYK (low nibble), 0xEXKK and 0xFXKK (low byte) — an
opcode matching no case is a fatal halt (`none`); but the 5XYK family is
decoded only by its top nibble, so any low nibble (e.g. 5XY1) executes as
the skip-if-equal instruction rather than halting. -/
theorem C5_unknown_subopcode_fatal :
    (∀ (cpu : CPU) (op pc : Nat) (tick : Bool) (input : Input) (rnd : Nat),
      op &&& 0xF000 = 0x0000 → ¬ op &&& 0x000F = 0x0000 → ¬ op &&& 0x000F = 0x000E →
      CPU.execute_opcode cpu op pc tick input rnd = none) ∧
    (∀ (cpu : CPU) (op pc : Nat) (tick : Bool) (input : Input) (rnd : Nat),
      op &&& 0xF000 = 0x8000 →
      ¬ op &&& 0x000F = 0x0000 → ¬ op &&& 0x000F = 0x0001 → ¬ op &&& 0x000F = 0x0002 →
      ¬ op &&& 0x000F = 0x0003 → ¬ op &&& 0x000F = 0x0004 → ¬ op &&& 0x000F = 0x0005 →
      ¬ op &&& 0x000F = 0x0006 → ¬ op &&& 0x000F = 0x0007 → ¬ op &&& 0x000F = 0x000E →
      CPU.execute_opcode cpu op pc tick input rnd = none) ∧
    (∀ (cpu : CPU) (op pc : Nat) (tick : Bool) (input : Input) (rnd : Nat),
      op &&& 0xF000 = 0xE000 → ¬ op &&& 0x00FF = 0x009E → ¬ op &&& 0x00FF = 0x00A1 →
      CPU.execute_opcode cpu op pc tick input rnd = none) ∧
    (∀ (cpu : CPU) (op pc : Nat) (tick : Bool) (input : Input) (rnd : Nat),
      op &&& 0xF000 = 0xF000 →
      ¬ op &&& 0x00FF = 0x0007 → ¬ op &&& 0x00FF = 0x000A → ¬ op &&& 0x00FF = 0x0015 →
      ¬ op &&& 0x00FF = 0x0018 → ¬ op &&& 0x00FF = 0x001E → ¬ op &&& 0x00FF = 0x0029 →
      ¬ op &&& 0x00FF = 0x0033 → ¬ op &&& 0x00FF = 0x0055 → ¬ op &&& 0x00FF = 0x0065 →
      CPU.execute_opcode cpu op pc tick input rnd = none) ∧
    (∀ (cpu : CPU) (op pc : Nat) (input : Input) (rnd : Nat),
      op &&& 0xF000 = 0x5000 →
      (CPU.execute_opcode cpu op pc false input rnd).map Prod.snd
        = some (if cpu.v.getD ((op &&& 0x0F00) >>> 8) 0
              = cpu.v.getD ((op &&& 0x00F0) >>> 4) 0 then pc + 4 else pc + 2)) := by
  refine ⟨?_, ?_, ?_, ?_, ?_⟩
  · intro cpu op pc tick input rnd hf h0 hE
    have hf1 : ¬ op &&& 0xF000 = 0x1000 := by omega
    simp only [CPU.execute_opcode, CPU.dispatch, hf, h0, hE, Nat.reduceEqDiff, reduceIte]
  · intro cpu op pc tick input rnd hf h0 h1 h2 h3 h4 h5 h6 h7 hE
    simp only [CPU.execute_opcode, CPU.dispatch, hf, h0, h1, h2, h3, h4, h5, h6, h7, hE,
      Nat.reduceEqDiff, reduceIte]
  · intro cpu op pc tick input rnd hf h9E hA1
    simp only [CPU.execute_opcode, CPU.dispatch, hf, h9E, hA1, Nat.reduceEqDiff, reduceIte]
  · intro cpu op pc tick input rnd hf h07 h0A h15 h18 h1E h29 h33 h55 h65
    simp only [CPU.execute_opcode, CPU.dispatch, hf, h07, h0A, h15, h18, h1E, h29, h33, h55,
      h65, Nat.reduceEqDiff, reduceIte, Option.map_none']
  · intro cpu op pc input rnd hf
    simp [CPU.execute_opcode, CPU.dispatch, hf]

theorem C5_unknown_subopcode_fatal_witness :
    CPU.execute_opcode cpu0 0x0001 0x200 false inp0 0 = none ∧
    CPU.execute_opcode cpu0 0x8018 0x200 false inp0 0 = none ∧
    CPU.execute_opcode cpu0 0xE000 0x200 false inp0 0 = none ∧
    CPU.execute_opcode cpu0 0xF0FF 0x200 false inp0 0 = none ∧
    (CPU.execute_opcode cpu0 0x5010 0x200 false inp0 0).map Prod.snd = some 0x204 :=
  ⟨C5_unknown_subopcode_fatal.1 cpu0 0x0001 0x200 false inp0 0 (by decide) (by decide)
      (by decide),
   C5_unknown_subopcode_fatal.2.1 cpu0 0x8018 0x200 false inp0 0 (by decide) (by decide)
      (by decide) (by decide) (by decide) (by decide) (by decide) (by decide) (by decide)
      (by decide),
   C5_unknown_subopcode_fatal.2.2.1 cpu0 0xE000 0x200 false inp0 0 (by decide) (by decide)
      (by decide),
   C5_unknown_subopcode_fatal.2.2.2.1 cpu0 0xF0FF 0x200 false inp0 0 (by decide) (by decide)
      (by decide) (by decide) (by decide) (by decide) (by decide) (by decide) (by decide)
      (by decide),
   by
     have := C5_unknown_subopcode_fatal.2.2.2.2 cpu0 0x5010 0x200 inp0 0 (by decide)
     simpa using this⟩


/-- Claim C6, counterexample: for 8XY4 with X = F (opcode 0x8F04,
VF = 200, V0 = 100) the code first writes the carry flag into VF and then
re-reads it for the sum, leaving VF = (1 + 100) % 256 = 101, not
(200 + 100) % 256 = 44 as "VX becomes (VX+VY) mod 256" requires. -/
theorem C6_add_counterexample :
    (CPU.execute_opcode cpu6 0x8F04 0x200 false inp0 0).map (fun p => p.1.v.getD 0xF 0)
      = some 101 ∧ ¬ (101 : Nat) = (200 + 100) % 256 := by
  decide

/-- Claim C6 (amended): for 7XNN, VX becomes (VX+NN) mod 256, the counter
advances by 2 and no other register changes (so the flag register is
unaffected exactly when X ≠ F).  For 8XY4 with X ≠ F and Y ≠ F, the flag
register VF is set to 1 iff the unsigned sum VX + VY exceeds 255 and VX
becomes (VX+VY) mod 256; when X (or Y) is F, the flag write precedes the
addition and the re-read operands make the result differ. -/
theorem C6_add_semantics :
    (∀ (cpu : CPU) (op pc : Nat) (input : Input) (rnd : Nat),
      op &&& 0xF000 = 0x7000 →
      ∃ c', CPU.execute_opcode cpu op pc false input rnd = some (c', pc + 2) ∧
        c'.v = cpu.v.set ((op &&& 0x0F00) >>> 8)
          ((cpu.v.getD ((op &&& 0x0F00) >>> 8) 0 + (op &&& 0x00FF)) % 256)) ∧
    (∀ (cpu : CPU) (op pc : Nat) (input : Input) (rnd : Nat),
      op &&& 0xF000 = 0x8000 → op &&& 0x000F = 0x0004 →
      ¬ (op &&& 0x0F00) >>> 8 = 0xF → ¬ (op &&& 0x00F0) >>> 4 = 0xF →
      cpu.v.length = 16 →
      ∃ c', CPU.execute_opcode cpu op pc false input rnd = some (c', pc + 2) ∧
        c'.v = (cpu.v.set 0xF
            (if cpu.v.getD ((op &&& 0x0F00) >>> 8) 0
                + cpu.v.getD ((op &&& 0x00F0) >>> 4) 0 > 255 then 1 else 0)).set
          ((op &&& 0x0F00) >>> 8)
          ((cpu.v.getD ((op &&& 0x0F00) >>> 8) 0
            + cpu.v.getD ((op &&& 0x00F0) >>> 4) 0) % 256) ∧
        c'.v.getD 0xF 0 = (if cpu.v.getD ((op &&& 0x0F00) >>> 8) 0
            + cpu.v.getD ((op &&& 0x00F0) >>> 4) 0 > 255 then 1 else 0)) := by
  constructor
  · intro cpu op pc input rnd hf
    simp [CPU.execute_opcode, CPU.dispatch, hf]
  · intro cpu op pc input rnd hf hs4 hX hY hlen
    have hx' : (0xF : Nat) ≠ (op &&& 0x0F00) >>> 8 := fun hh => hX hh.symm
    have hy' : (0xF : Nat) ≠ (op &&& 0x00F0) >>> 4 := fun hh => hY hh.symm
    refine ⟨{ cpu with display := cpu.display.clear_dirty, v := (cpu.v.set 0xF (if cpu.v.getD ((op &&& 0x0F00) >>> 8) 0 + cpu.v.getD ((op &&& 0x00F0) >>> 4) 0 > 255 then 1 else 0)).set ((op &&& 0x0F00) >>> 8) ((cpu.v.getD ((op &&& 0x0F00) >>> 8) 0 + cpu.v.getD ((op &&& 0x00F0) >>> 4) 0) % 256) }, ?_, rfl, ?_⟩
    · simp only [CPU.execute_opcode, CPU.dispatch, hf, hs4, Nat.reduceEqDiff, reduceIte,
        Bool.false_eq_true, getD_set_of_ne _ _ hx', getD_set_of_ne _ _ hy']
    · rw [getD_set_of_ne _ _ hX]
      exact getD_set_self cpu.v 0xF _ (by simp [hlen])

theorem C6_add_semantics_witness :
    (∃ c', CPU.execute_opcode cpu0 0x7A07 0x200 false inp0 0 = some (c', 0x202) ∧
      c'.v = cpu0.v.set 0xA ((cpu0.v.getD 0xA 0 + 0x07) % 256)) ∧
    (∃ c', CPU.execute_opcode cpu6 0x8014 0x200 false inp0 0 = some (c', 0x202) ∧
      c'.v = (cpu6.v.set 0xF 0).set 0 ((100 + 0) % 256) ∧ c'.v.getD 0xF 0 = 0) :=
  ⟨by
    have := C6_add_semantics.1 cpu0 0x7A07 0x200 inp0 0 (by decide)
    simpa using this,
   by
    have := C6_add_semantics.2 cpu6 0x8014 0x200 inp0 0 (by decide) (by decide) (by decide)
      (by decide) (by decide)
    simpa using this⟩

/-- Claim C10: whenever an opcode is executed with the tick-timers flag
set, both the delay and the sound timer tick exactly once, regardless of
the instruction — the new delay timer is `Timer.tick` of the value the
instruction body left (the original value for every instruction except
the delay-timer write FX15, where it is the freshly written VX), and
symmetrically for the sound timer with FX18.  In particular the delay
timer keeps counting down on the cycles where FX0A stalls. -/
theorem C10_timers_tick (cpu : CPU) (op pc : Nat) (input : Input) (rnd : Nat)
    (c' : CPU) (npc : Nat)
    (h : CPU.execute_opcode cpu op pc true input rnd = some (c', npc)) :
    c'.delay_timer = Timer.tick (if op &&& 0xF000 = 0xF000 ∧ op &&& 0x00FF = 0x0015
        then cpu.v.getD ((op &&& 0x0F00) >>> 8) 0 else cpu.delay_timer) ∧
    c'.sound_timer = Timer.tick (if op &&& 0xF000 = 0xF000 ∧ op &&& 0x00FF = 0x0018
        then cpu.v.getD ((op &&& 0x0F00) >>> 8) 0 else cpu.sound_timer) := by
  unfold CPU.execute_opcode at h
  cases hd : CPU.dispatch { cpu with display := cpu.display.clear_dirty } op pc input rnd with
  | none => rw [hd] at h; exact Option.noConfusion h
  | some p =>
    obtain ⟨c, npc0⟩ := p
    rw [hd] at h
    have hchar := dispatch_timer_char _ op pc input rnd c npc0 hd
    simp only [reduceIte, Option.some.injEq, Prod.mk.injEq] at h
    obtain ⟨hc, -⟩ := h
    subst hc
    exact ⟨by simpa using congrArg Timer.tick hchar.1,
           by simpa using congrArg Timer.tick hchar.2⟩

theorem C10_timers_tick_witness :
    ∃ c' npc, CPU.execute_opcode cpuT 0x6000 0x200 true inp0 0 = some (c', npc) ∧
      c'.delay_timer = Timer.tick cpuT.delay_timer ∧
      c'.sound_timer = Timer.tick cpuT.sound_timer := by
  cases heval : CPU.execute_opcode cpuT 0x6000 0x200 true inp0 0 with
  | none => exact absurd heval (by decide)
  | some p =>
    obtain ⟨c', npc⟩ := p
    have := C10_timers_tick cpuT 0x6000 0x200 inp0 0 c' npc heval
    exact ⟨c', npc, rfl, by simpa using this.1, by simpa using this.2⟩


/-! ## Blit characterisation lemmas -/

theorem blitStep_or (fb : List Nat) (c : Bool) (w : Nat × Nat) :
    blitStep (fb, c) w = ((blitStep (fb, false) w).1, c || (blitStep (fb, false) w).2) := by
  simp only [blitStep]
  split <;> simp

theorem blit_fst_collide (ws : List (Nat × Nat)) : ∀ (fb : List Nat) (c : Bool),
    (blit (fb, c) ws).1 = (blit (fb, false) ws).1 := by
  induction ws with
  | nil => intro fb c; rfl
  | cons w ws ih =>
    intro fb c
    show (blit (blitStep (fb, c) w) ws).1 = (blit (blitStep (fb, false) w) ws).1
    rw [blitStep_or fb c w]
    have l1 := ih (blitStep (fb, false) w).1 (c || (blitStep (fb, false) w).2)
    have l2 := ih (blitStep (fb, false) w).1 (blitStep (fb, false) w).2
    exact l1.trans l2.symm

theorem blit_snd_or (ws : List (Nat × Nat)) : ∀ (fb : List Nat) (c : Bool),
    (blit (fb, c) ws).2 = (c || (blit (fb, false) ws).2) := by
  induction ws with
  | nil => intro fb c; simp [blit]
  | cons w ws ih =>
    intro fb c
    show (blit (blitStep (fb, c) w) ws).2 = (c || (blit (blitStep (fb, false) w) ws).2)
    rw [blitStep_or fb c w]
    have l1 := ih (blitStep (fb, false) w).1 (c || (blitStep (fb, false) w).2)
    have l2 := ih (blitStep (fb, false) w).1 (blitStep (fb, false) w).2
    rw [l1, Bool.or_assoc]
    congr 1
    exact l2.symm

theorem blit_or (ws : List (Nat × Nat)) (fb : List Nat) (c : Bool) :
    blit (fb, c) ws = ((blit (fb, false) ws).1, c || (blit (fb, false) ws).2) :=
  Prod.ext (blit_fst_collide ws fb c) (blit_snd_or ws fb c)

theorem blit_length (ws : List (Nat × Nat)) : ∀ (fb : List Nat) (c : Bool),
    (blit (fb, c) ws).1.length = fb.length := by
  induction ws with
  | nil => intro fb c; rfl
  | cons w ws ih =>
    intro fb c
    have e1 : blit (fb, c) (w :: ws) = blit (blitStep (fb, c) w) ws := rfl
    rw [e1]
    have eta1 : blit (blitStep (fb, c) w) ws
        = blit ((blitStep (fb, c) w).1, (blitStep (fb, c) w).2) ws := rfl
    rw [eta1, ih]
    simp [blitStep]

theorem blit_getD_not_mem (ws : List (Nat × Nat)) : ∀ (fb : List Nat) (c : Bool) (p : Nat),
    p ∉ ws.map Prod.fst → ((blit (fb, c) ws).1).getD p 0 = fb.getD p 0 := by
  induction ws with
  | nil => intro fb c p _; rfl
  | cons w ws ih =>
    intro fb c p hp
    simp only [List.map_cons, List.mem_cons, not_or] at hp
    obtain ⟨hpw, hpws⟩ := hp
    have e1 : blit (fb, c) (w :: ws) = blit (blitStep (fb, c) w) ws := rfl
    rw [e1]
    have eta1 : blit (blitStep (fb, c) w) ws
        = blit ((blitStep (fb, c) w).1, (blitStep (fb, c) w).2) ws := rfl
    rw [eta1, ih _ _ _ hpws]
    exact getD_set_of_ne _ _ (fun hh => hpw hh.symm)

theorem blit_getD_mem (ws : List (Nat × Nat)) : ∀ (fb : List Nat) (c : Bool) (p b : Nat),
    (ws.map Prod.fst).Nodup → (p, b) ∈ ws → p < fb.length →
    ((blit (fb, c) ws).1).getD p 0 = fb.getD p 0 ^^^ b := by
  induction ws with
  | nil => intro fb c p b _ hmem _; exact absurd hmem (List.not_mem_nil _)
  | cons w ws ih =>
    intro fb c p b hnd hmem hlt
    simp only [List.map_cons, List.nodup_cons] at hnd
    obtain ⟨hw_notin, hnd'⟩ := hnd
    have e1 : blit (fb, c) (w :: ws) = blit (blitStep (fb, c) w) ws := rfl
    rw [e1]
    have eta1 : blit (blitStep (fb, c) w) ws
        = blit ((blitStep (fb, c) w).1, (blitStep (fb, c) w).2) ws := rfl
    rw [eta1]
    rcases List.mem_cons.mp hmem with heq | hmem'
    · -- the head write is (p, b)
      obtain ⟨hp, hb⟩ : w.1 = p ∧ w.2 = b := by
        constructor <;> rw [← heq]
      subst hp; subst hb
      have hnot : w.1 ∉ ws.map Prod.fst := hw_notin
      rw [blit_getD_not_mem ws _ _ _ hnot]
      simp only [blitStep]
      exact getD_set_self _ _ _ hlt
    · -- the write is in the tail
      have hne : w.1 ≠ p := by
        intro hh
        exact hw_notin (hh ▸ List.mem_map_of_mem Prod.fst hmem')
      have hlt' : p < (blitStep (fb, c) w).1.length := by
        simpa [blitStep] using hlt
      rw [ih _ _ _ _ hnd' hmem' hlt']
      congr 1
      simp only [blitStep]
      exact getD_set_of_ne _ _ hne

theorem any_congr_of_mem {l : List (Nat × Nat)} {f g : Nat × Nat → Bool}
    (h : ∀ a ∈ l, f a = g a) : l.any f = l.any g := by
  induction l with
  | nil => rfl
  | cons a l ih =>
    simp only [List.any_cons]
    rw [h a (List.mem_cons_self a l), ih (fun b hb => h b (List.mem_cons_of_mem a hb))]

theorem blit_snd (ws : List (Nat × Nat)) : ∀ (fb : List Nat) (c : Bool),
    (ws.map Prod.fst).Nodup →
    (blit (fb, c) ws).2
      = (c || ws.any (fun w => decide (0 < w.2) && decide (fb.getD w.1 0 = 1))) := by
  induction ws with
  | nil => intro fb c _; simp [blit]
  | cons w ws ih =>
    intro fb c hnd
    simp only [List.map_cons, List.nodup_cons] at hnd
    obtain ⟨hw_notin, hnd'⟩ := hnd
    have e1 : blit (fb, c) (w :: ws) = blit (blitStep (fb, c) w) ws := rfl
    rw [e1]
    have eta1 : blit (blitStep (fb, c) w) ws
        = blit ((blitStep (fb, c) w).1, (blitStep (fb, c) w).2) ws := rfl
    rw [eta1, ih _ _ hnd']
    have hfb : ∀ a ∈ ws, (fun u => decide (0 < u.2)
          && decide ((blitStep (fb, c) w).1.getD u.1 0 = 1)) a
        = (fun u => decide (0 < u.2) && decide (fb.getD u.1 0 = 1)) a := by
      intro a ha
      have hne : w.1 ≠ a.1 := by
        intro hh
        exact hw_notin (hh ▸ List.mem_map_of_mem Prod.fst ha)
      simp only [blitStep]
      rw [getD_set_of_ne _ _ hne]
    rw [any_congr_of_mem hfb]
    simp only [blitStep, List.any_cons]
    split <;> rename_i hw2
    · simp [Bool.or_assoc, hw2]
    · have : ¬ (0 < w.2) := hw2
      simp [this]


/-! ## Bridging `draw_sprite` to `blit` -/

theorem drawRow_eq_blit (x y_norm sprite : Nat) (fb : List Nat) (c : Bool) :
    drawRow x y_norm sprite (fb, c) = blit (fb, c) (rowWrites x y_norm sprite) := rfl

theorem drawRows_enumFrom_eq_blit (x y : Nat) (sprites : List Nat) : ∀ (n : Nat)
    (fb : List Nat) (c : Bool),
    drawRows x y (fb, c) (List.enumFrom n sprites)
      = blit (fb, c) (spriteWritesFrom x y n sprites) := by
  induction sprites with
  | nil => intro n fb c; rfl
  | cons s rest ih =>
    intro n fb c
    show drawRows x y
        ((drawRow x ((y + n) % 32) s (fb, false)).1,
          c || (drawRow x ((y + n) % 32) s (fb, false)).2)
        (List.enumFrom (n + 1) rest)
      = blit (fb, c) (rowWrites x ((y + n) % 32) s ++ spriteWritesFrom x y (n + 1) rest)
    rw [drawRow_eq_blit]
    have hrow : ((blit (fb, false) (rowWrites x ((y + n) % 32) s)).1,
        c || (blit (fb, false) (rowWrites x ((y + n) % 32) s)).2)
        = blit (fb, c) (rowWrites x ((y + n) % 32) s) := (blit_or _ fb c).symm
    rw [hrow]
    have happ : blit (fb, c) (rowWrites x ((y + n) % 32) s ++ spriteWritesFrom x y (n + 1) rest)
        = blit (blit (fb, c) (rowWrites x ((y + n) % 32) s)) (spriteWritesFrom x y (n + 1) rest) := by
      simp [blit, List.foldl_append]
    rw [happ]
    exact ih (n + 1) (blit (fb, c) (rowWrites x ((y + n) % 32) s)).1
      (blit (fb, c) (rowWrites x ((y + n) % 32) s)).2

/-- `draw_sprite` as a flattened blit: when the memory slice is in range,
the result display is the original with dirty set and the framebuffer
replaced by the blit of all sprite writes, and the collision flag is the
blit's accumulated flag. -/
theorem draw_sprite_eq_blit (d : FramebufferDisplay) (x y base_address bytes_to_read : Nat)
    (mem sprites : List Nat)
    (hs : Memory.as_slice mem base_address bytes_to_read = some sprites) :
    d.draw_sprite x y base_address bytes_to_read mem
      = some ({ framebuffer := (blit (d.framebuffer, false) (spriteWritesFrom x y 0 sprites)).1,
                dirty := true },
          (blit (d.framebuffer, false) (spriteWritesFrom x y 0 sprites)).2) := by
  unfold FramebufferDisplay.draw_sprite
  rw [hs]
  show some (({ framebuffer := (drawRows x y (d.framebuffer, false) sprites.enum).1, dirty := true } : FramebufferDisplay),
      (drawRows x y (d.framebuffer, false) sprites.enum).2) = _
  have he : sprites.enum = List.enumFrom 0 sprites := rfl
  rw [he, drawRows_enumFrom_eq_blit]


/-! ## The write list of a sprite: membership and distinctness -/

theorem mem_rowWrites {x y_norm sprite : Nat} {w : Nat × Nat} :
    w ∈ rowWrites x y_norm sprite ↔
      ∃ bit, bit < 8 ∧ w = (y_norm * 64 + (x + bit) % 64, spritePixel sprite bit) := by
  simp only [rowWrites, List.mem_map, List.mem_range]
  constructor
  · rintro ⟨bit, hbit, rfl⟩
    exact ⟨bit, hbit, rfl⟩
  · rintro ⟨bit, hbit, rfl⟩
    exact ⟨bit, hbit, rfl⟩

theorem mem_spriteWritesFrom (x y : Nat) (sprites : List Nat) : ∀ (n : Nat) (w : Nat × Nat),
    w ∈ spriteWritesFrom x y n sprites ↔
      ∃ r, r < sprites.length ∧ ∃ bit, bit < 8 ∧
        w = (((y + (n + r)) % 32) * 64 + (x + bit) % 64,
          spritePixel (sprites.getD r 0) bit) := by
  induction sprites with
  | nil =>
    intro n w
    simp [spriteWritesFrom]
  | cons s rest ih =>
    intro n w
    simp only [spriteWritesFrom, List.mem_append, mem_rowWrites, ih (n + 1)]
    constructor
    · rintro (⟨bit, hbit, rfl⟩ | ⟨r, hr, bit, hbit, rfl⟩)
      · exact ⟨0, Nat.succ_pos _, bit, hbit, rfl⟩
      · refine ⟨r + 1, Nat.succ_lt_succ hr, bit, hbit, ?_⟩
        have harith : n + 1 + r = n + (r + 1) := by omega
        rw [harith]
        rfl
    · rintro ⟨r, hr, bit, hbit, rfl⟩
      cases r with
      | zero => exact Or.inl ⟨bit, hbit, rfl⟩
      | succ r =>
        refine Or.inr ⟨r, Nat.lt_of_succ_lt_succ hr, bit, hbit, ?_⟩
        have harith : n + 1 + r = n + (r + 1) := by omega
        rw [harith]
        rfl

theorem rowWrites_fst_nodup (x y_norm sprite : Nat) :
    ((rowWrites x y_norm sprite).map Prod.fst).Nodup := by
  have hmap : (rowWrites x y_norm sprite).map Prod.fst
      = (List.range 8).map (fun bit => y_norm * 64 + (x + bit) % 64) := by
    simp [rowWrites, List.map_map]
  rw [hmap]
  apply List.Nodup.map_on _ (List.nodup_range 8)
  intro b1 hb1 b2 hb2 heq
  simp only [List.mem_range] at hb1 hb2
  omega

theorem spriteWritesFrom_fst_nodup (x y : Nat) (sprites : List Nat) : ∀ (n : Nat),
    n + sprites.length ≤ 32 →
    ((spriteWritesFrom x y n sprites).map Prod.fst).Nodup := by
  induction sprites with
  | nil => intro n _; simp [spriteWritesFrom]
  | cons s rest ih =>
    intro n hle
    simp only [List.length_cons] at hle
    simp only [spriteWritesFrom, List.map_append]
    rw [List.nodup_append]
    refine ⟨rowWrites_fst_nodup x ((y + n) % 32) s, ih (n + 1) (by omega), ?_⟩
    intro a ha ha'
    simp only [List.mem_map, mem_rowWrites] at ha
    obtain ⟨w, ⟨bit, hbit, rfl⟩, rfl⟩ := ha
    simp only [List.mem_map] at ha'
    obtain ⟨w', hw', hfst⟩ := ha'
    rw [mem_spriteWritesFrom] at hw'
    obtain ⟨r, hr, bit', hbit', rfl⟩ := hw'
    simp only at hfst
    omega


theorem spritePixel_le_one (s b : Nat) : spritePixel s b ≤ 1 := by
  unfold spritePixel
  have h1 : ((s <<< b) % 256) &&& 0x80 ≤ 0x80 := Nat.and_le_right
  calc (((s <<< b) % 256) &&& 0x80) >>> 7
      = (((s <<< b) % 256) &&& 0x80) / 128 := by rw [Nat.shiftRight_eq_div_pow]
    _ ≤ 128 / 128 := Nat.div_le_div_right h1
    _ = 1 := by norm_num

/-- Claim C1: `draw_sprite(x, y, sourceAddress, height, memory)` reads
`height` bytes from memory starting at `sourceAddress`; for each of the 8
bits of each byte (most significant bit first), the target pixel at
`((x+bit) mod 64, (y+row) mod 32)` is XORed with the sprite bit; the
returned collision flag is true iff any set sprite bit across the whole
sprite overlapped a previously-set pixel; and the dirty flag is set
unconditionally.  (`height ≤ 32` holds at the only call site, where the
height is an opcode nibble, and guarantees the sprite touches each pixel
at most once.) -/
theorem C1_draw_sprite_spec (d : FramebufferDisplay) (x y base_address height : Nat)
    (mem : List Nat) (d' : FramebufferDisplay) (collision : Bool)
    (hlen : d.framebuffer.length = 2048)
    (hh : height ≤ 32)
    (hmem : base_address + height ≤ mem.length)
    (hdraw : d.draw_sprite x y base_address height mem = some (d', collision)) :
    (∀ r, r < height → ∀ bit, bit < 8 →
      d'.framebuffer.getD (((y + r) % 32) * 64 + (x + bit) % 64) 0
        = d.framebuffer.getD (((y + r) % 32) * 64 + (x + bit) % 64) 0
          ^^^ spritePixel (mem.getD (base_address + r) 0) bit) ∧
    (collision = true ↔ ∃ r, r < height ∧ ∃ bit, bit < 8 ∧
      spritePixel (mem.getD (base_address + r) 0) bit = 1 ∧
      d.framebuffer.getD (((y + r) % 32) * 64 + (x + bit) % 64) 0 = 1) ∧
    d'.dirty = true := by
  rcases hsl : Memory.as_slice mem base_address height with _ | sprites
  · exfalso
    unfold FramebufferDisplay.draw_sprite at hdraw
    rw [hsl] at hdraw
    exact Option.noConfusion hdraw
  · rw [draw_sprite_eq_blit d x y base_address height mem sprites hsl] at hdraw
    simp only [Option.some.injEq, Prod.mk.injEq] at hdraw
    obtain ⟨hd', hcoll⟩ := hdraw
    have hsl' := hsl
    simp only [Memory.as_slice, Option.ite_none_right_eq_some, Option.some.injEq] at hsl'
    obtain ⟨hbound, hsprites⟩ := hsl'
    have hslen : sprites.length = height := by
      rw [← hsprites]
      simp only [List.length_take, List.length_drop]
      omega
    have hbyte : ∀ r, r < height → sprites.getD r 0 = mem.getD (base_address + r) 0 := by
      intro r hr
      rw [← hsprites]
      simp only [List.getD_eq_getElem?_getD]
      rw [List.getElem?_take_of_lt hr, List.getElem?_drop]
    have hnodup : ((spriteWritesFrom x y 0 sprites).map Prod.fst).Nodup :=
      spriteWritesFrom_fst_nodup x y sprites 0 (by omega)
    subst hd'
    refine ⟨?_, ?_, rfl⟩
    · intro r hr bit hbit
      have hzr : (0 : Nat) + r = r := Nat.zero_add r
      have hmemw : (((y + r) % 32) * 64 + (x + bit) % 64,
          spritePixel (sprites.getD r 0) bit) ∈ spriteWritesFrom x y 0 sprites := by
        rw [mem_spriteWritesFrom]
        exact ⟨r, by omega, bit, hbit, by rw [hzr]⟩
      have hplt : ((y + r) % 32) * 64 + (x + bit) % 64 < d.framebuffer.length := by
        have h1 : (y + r) % 32 < 32 := Nat.mod_lt _ (by norm_num)
        have h2 : (x + bit) % 64 < 64 := Nat.mod_lt _ (by norm_num)
        omega
      have hchar := blit_getD_mem (spriteWritesFrom x y 0 sprites) d.framebuffer false _ _
        hnodup hmemw hplt
      rw [hbyte r hr] at hchar
      simpa using hchar
    · rw [← hcoll, blit_snd _ _ _ hnodup]
      simp only [Bool.false_or]
      rw [List.any_eq_true]
      constructor
      · rintro ⟨w, hw, hfw⟩
        rw [mem_spriteWritesFrom] at hw
        obtain ⟨r, hrlen, bit, hbit, rfl⟩ := hw
        simp only [decide_eq_true_eq, Bool.and_eq_true] at hfw
        obtain ⟨hpos, hone⟩ := hfw
        have hr : r < height := by omega
        refine ⟨r, hr, bit, hbit, ?_, ?_⟩
        · have hle := spritePixel_le_one (mem.getD (base_address + r) 0) bit
          rw [hbyte r hr] at hpos
          omega
        · simpa [Nat.zero_add] using hone
      · rintro ⟨r, hr, bit, hbit, hpix, hone⟩
        refine ⟨(((y + (0 + r)) % 32) * 64 + (x + bit) % 64,
            spritePixel (sprites.getD r 0) bit), ?_, ?_⟩
        · rw [mem_spriteWritesFrom]
          exact ⟨r, by omega, bit, hbit, rfl⟩
        · simp only [decide_eq_true_eq, Bool.and_eq_true]
          constructor
          · rw [hbyte r hr, hpix]
            norm_num
          · simpa [Nat.zero_add] using hone


set_option maxRecDepth 2000 in
theorem C1_draw_sprite_spec_witness :
    ∃ d' collision, FramebufferDisplay.new.draw_sprite 0 0 0 1 mem1 = some (d', collision) ∧
      d'.framebuffer.getD 0 0
        = FramebufferDisplay.new.framebuffer.getD 0 0 ^^^ spritePixel (mem1.getD 0 0) 0 ∧
      (collision = true ↔ ∃ r, r < 1 ∧ ∃ bit, bit < 8 ∧
        spritePixel (mem1.getD (0 + r) 0) bit = 1 ∧
        FramebufferDisplay.new.framebuffer.getD (((0 + r) % 32) * 64 + (0 + bit) % 64) 0
          = 1) ∧
      d'.dirty = true := by
  cases heval : FramebufferDisplay.new.draw_sprite 0 0 0 1 mem1 with
  | none => exact absurd heval (by decide)
  | some p =>
    obtain ⟨d', collision⟩ := p
    have hlen : FramebufferDisplay.new.framebuffer.length = 2048 := by
      show (List.replicate (FRAME_BUFFER_PIXEL_WIDTH * FRAME_BUFFER_PIXEL_HEIGHT) 0).length
          = 2048
      rw [List.length_replicate]
      decide
    have hmlen : (0 : Nat) + 1 ≤ mem1.length := by
      show 0 + 1 ≤ ((List.replicate 4096 0).set 0 0x80).length
      rw [List.length_set, List.length_replicate]
      norm_num
    have h := C1_draw_sprite_spec FramebufferDisplay.new 0 0 0 1 mem1 d' collision
      hlen (by norm_num) hmlen heval
    refine ⟨d', collision, rfl, ?_, h.2.1, h.2.2⟩
    exact h.1 0 (by decide) 0 (by decide)

/-- Claim C7, counterexample: drawing the all-zero one-byte sprite twice
at (0,0) on a fresh display reports no collision on the second draw,
refuting "collision on the second" for every sprite. -/
theorem C7_counterexample :
    ((FramebufferDisplay.new.draw_sprite 0 0 0 1 mem0).bind
        (fun p => p.1.draw_sprite 0 0 0 1 mem0)).map Prod.snd = some false ∧
    ¬ ((FramebufferDisplay.new.draw_sprite 0 0 0 1 mem0).bind
        (fun p => p.1.draw_sprite 0 0 0 1 mem0)).map Prod.snd = some true := by
  constructor <;> decide

/-- Claim C7 (amended): for every sprite that has at least one set bit
and whose set bits all target clear pixels (in particular on an all-zero
framebuffer), drawing it twice at the same coordinates reports
no-collision on the first draw and collision on the second; after the
second draw every pixel holds its pre-first-draw value again (XOR
self-cancellation); and dirty is true after both draws. -/
theorem C7_double_draw (d : FramebufferDisplay) (x y base_address height : Nat)
    (mem : List Nat)
    (hlen : d.framebuffer.length = 2048)
    (hh : height ≤ 32)
    (hmem : base_address + height ≤ mem.length)
    (hbound : base_address + height ≤ 4096)
    (hclear : ∀ r, r < height → ∀ bit, bit < 8 →
      spritePixel (mem.getD (base_address + r) 0) bit = 1 →
      d.framebuffer.getD (((y + r) % 32) * 64 + (x + bit) % 64) 0 = 0)
    (hbit : ∃ r, r < height ∧ ∃ bit, bit < 8 ∧
      spritePixel (mem.getD (base_address + r) 0) bit = 1) :
    ∃ d1 d2, d.draw_sprite x y base_address height mem = some (d1, false) ∧
      d1.draw_sprite x y base_address height mem = some (d2, true) ∧
      d2.framebuffer = d.framebuffer ∧ d1.dirty = true ∧ d2.dirty = true := by
  have hsl : Memory.as_slice mem base_address height
      = some ((mem.drop base_address).take height) := by
    simp [Memory.as_slice, MEMORY_SIZE, hbound]
  set sprites := (mem.drop base_address).take height with hsp
  have hslen : sprites.length = height := by
    simp only [hsp, List.length_take, List.length_drop]
    omega
  have hbyte : ∀ r, r < height → sprites.getD r 0 = mem.getD (base_address + r) 0 := by
    intro r hr
    simp only [hsp, List.getD_eq_getElem?_getD]
    rw [List.getElem?_take_of_lt hr, List.getElem?_drop]
  have hnodup : ((spriteWritesFrom x y 0 sprites).map Prod.fst).Nodup :=
    spriteWritesFrom_fst_nodup x y sprites 0 (by omega)
  have hwlt : ∀ w ∈ spriteWritesFrom x y 0 sprites, w.1 < 2048 ∧ w.2 ≤ 1 ∧
      (w.2 = 1 → d.framebuffer.getD w.1 0 = 0) := by
    intro w hw
    rw [mem_spriteWritesFrom] at hw
    obtain ⟨r, hr, bit, hbit', rfl⟩ := hw
    have h1 : (y + (0 + r)) % 32 < 32 := Nat.mod_lt _ (by norm_num)
    have h2 : (x + bit) % 64 < 64 := Nat.mod_lt _ (by norm_num)
    refine ⟨by omega, spritePixel_le_one _ _, ?_⟩
    intro hpix
    rw [hbyte r (by omega)] at hpix
    have := hclear r (by omega) bit hbit' hpix
    simpa [Nat.zero_add] using this
  -- first draw: no collision
  have hc1 : (blit (d.framebuffer, false) (spriteWritesFrom x y 0 sprites)).2 = false := by
    rw [blit_snd _ _ _ hnodup]
    simp only [Bool.false_or]
    rw [List.any_eq_false]
    intro w hw
    obtain ⟨-, hle, hzero⟩ := hwlt w hw
    simp only [decide_eq_true_eq, Bool.and_eq_true, not_and]
    intro hpos
    have hw2 : w.2 = 1 := by omega
    rw [hzero hw2]
    omega
  -- framebuffer after first draw
  set fb1 := (blit (d.framebuffer, false) (spriteWritesFrom x y 0 sprites)).1 with hfb1
  have hlen1 : fb1.length = 2048 := by rw [hfb1, blit_length, hlen]
  -- second draw: collision
  have hc2 : (blit (fb1, false) (spriteWritesFrom x y 0 sprites)).2 = true := by
    rw [blit_snd _ _ _ hnodup]
    simp only [Bool.false_or]
    rw [List.any_eq_true]
    obtain ⟨r, hr, bit, hbit', hpix⟩ := hbit
    refine ⟨(((y + (0 + r)) % 32) * 64 + (x + bit) % 64,
        spritePixel (sprites.getD r 0) bit), ?_, ?_⟩
    · rw [mem_spriteWritesFrom]
      exact ⟨r, by omega, bit, hbit', rfl⟩
    · have hple : spritePixel (sprites.getD r 0) bit = 1 := by
        rw [hbyte r hr]
        exact hpix
      have hmemw : (((y + (0 + r)) % 32) * 64 + (x + bit) % 64,
          spritePixel (sprites.getD r 0) bit) ∈ spriteWritesFrom x y 0 sprites := by
        rw [mem_spriteWritesFrom]
        exact ⟨r, by omega, bit, hbit', rfl⟩
      have hb1 : (y + (0 + r)) % 32 < 32 := Nat.mod_lt _ (by norm_num)
      have hb2 : (x + bit) % 64 < 64 := Nat.mod_lt _ (by norm_num)
      have hch := blit_getD_mem (spriteWritesFrom x y 0 sprites) d.framebuffer false _ _
        hnodup hmemw (by omega)
      have hz : d.framebuffer.getD (((y + (0 + r)) % 32) * 64 + (x + bit) % 64) 0 = 0 := by
        have := hclear r hr bit hbit' hpix
        simpa [Nat.zero_add] using this
      simp only [decide_eq_true_eq, Bool.and_eq_true]
      constructor
      · rw [hple]
        norm_num
      · rw [hfb1, hch, hple, hz]
        decide
  -- XOR self-cancellation
  have hcancel : (blit (fb1, false) (spriteWritesFrom x y 0 sprites)).1 = d.framebuffer := by
    apply List.ext_getElem
    · rw [blit_length, hlen1, hlen]
    · intro i hi1 hi2
      have hi : i < 2048 := by
        have := hi2
        omega
      have hgd : (blit (fb1, false) (spriteWritesFrom x y 0 sprites)).1.getD i 0
          = d.framebuffer.getD i 0 := by
        by_cases hin : i ∈ (spriteWritesFrom x y 0 sprites).map Prod.fst
        · obtain ⟨w, hw, hfst⟩ := List.mem_map.mp hin
          have hwpair : (i, w.2) ∈ spriteWritesFrom x y 0 sprites := by
            rw [show (i, w.2) = w from Prod.ext hfst.symm rfl]
            exact hw
          have h1 := blit_getD_mem (spriteWritesFrom x y 0 sprites) fb1 false i w.2
            hnodup hwpair (by omega)
          have h2 := blit_getD_mem (spriteWritesFrom x y 0 sprites) d.framebuffer false i w.2
            hnodup hwpair (by omega)
          rw [← hfb1] at h2
          rw [h1, h2]
          exact Nat.xor_cancel_right _ _
        · have h1 := blit_getD_not_mem (spriteWritesFrom x y 0 sprites) fb1 false i hin
          have h2 := blit_getD_not_mem (spriteWritesFrom x y 0 sprites) d.framebuffer false
            i hin
          rw [h1, hfb1, h2]
      have e1 : (blit (fb1, false) (spriteWritesFrom x y 0 sprites)).1.getD i 0
          = (blit (fb1, false) (spriteWritesFrom x y 0 sprites)).1[i] := by
        rw [List.getD_eq_getElem?_getD, List.getElem?_eq_getElem hi1]
        rfl
      have e2 : d.framebuffer.getD i 0 = d.framebuffer[i] := by
        rw [List.getD_eq_getElem?_getD, List.getElem?_eq_getElem hi2]
        rfl
      rw [← e1, ← e2]
      exact hgd
  refine ⟨{ framebuffer := fb1, dirty := true }, { framebuffer := (blit (fb1, false) (spriteWritesFrom x y 0 sprites)).1, dirty := true }, ?_, ?_, ?_, rfl, rfl⟩
  · rw [draw_sprite_eq_blit d x y base_address height mem sprites hsl, hc1, ← hfb1]
  · rw [draw_sprite_eq_blit _ x y base_address height mem sprites hsl]
    rw [show ({ framebuffer := fb1, dirty := true } : FramebufferDisplay).framebuffer
        = fb1 from rfl]
    rw [hc2]
  · exact hcancel


set_option maxRecDepth 2000 in
theorem C7_double_draw_witness :
    ∃ d1 d2, FramebufferDisplay.new.draw_sprite 0 0 0 1 mem1 = some (d1, false) ∧
      d1.draw_sprite 0 0 0 1 mem1 = some (d2, true) ∧
      d2.framebuffer = FramebufferDisplay.new.framebuffer ∧
      d1.dirty = true ∧ d2.dirty = true := by
  apply C7_double_draw
  · show (List.replicate (FRAME_BUFFER_PIXEL_WIDTH * FRAME_BUFFER_PIXEL_HEIGHT) 0).length
        = 2048
    rw [List.length_replicate]
    decide
  · norm_num
  · show 0 + 1 ≤ ((List.replicate 4096 0).set 0 0x80).length
    rw [List.length_set, List.length_replicate]
    norm_num
  · norm_num
  · decide
  · decide

theorem xor_le_one {a b : Nat} (ha : a ≤ 1) (hb : b ≤ 1) : a ^^^ b ≤ 1 := by
  interval_cases a <;> interval_cases b <;> decide

theorem getD_le_one {l : List Nat} (hl : ∀ v ∈ l, v ≤ 1) (i : Nat) : l.getD i 0 ≤ 1 := by
  by_cases hi : i < l.length
  · rw [List.getD_eq_getElem?_getD, List.getElem?_eq_getElem hi]
    exact hl _ (List.getElem_mem hi)
  · rw [List.getD_eq_getElem?_getD, List.getElem?_eq_none (by omega)]
    norm_num

theorem blit_cells_le_one (ws : List (Nat × Nat)) : ∀ (fb : List Nat) (c : Bool),
    (∀ v ∈ fb, v ≤ 1) → (∀ w ∈ ws, w.2 ≤ 1) → ∀ v ∈ (blit (fb, c) ws).1, v ≤ 1 := by
  induction ws with
  | nil => intro fb c hfb _ v hv; exact hfb v hv
  | cons w ws ih =>
    intro fb c hfb hws v hv
    have hfb' : ∀ u ∈ (blitStep (fb, c) w).1, u ≤ 1 := by
      intro u hu
      simp only [blitStep] at hu
      rcases List.mem_or_eq_of_mem_set hu with h | h
      · exact hfb u h
      · rw [h]
        exact xor_le_one (getD_le_one hfb _) (hws w (List.mem_cons_self w ws))
    have hv' : v ∈ (blit ((blitStep (fb, c) w).1, (blitStep (fb, c) w).2) ws).1 := hv
    exact ih _ _ hfb' (fun u hu => hws u (List.mem_cons_of_mem w hu)) v hv'

theorem spriteWritesFrom_snd_le_one (x y n : Nat) (sprites : List Nat) :
    ∀ w ∈ spriteWritesFrom x y n sprites, w.2 ≤ 1 := by
  intro w hw
  rw [mem_spriteWritesFrom] at hw
  obtain ⟨r, -, bit, -, rfl⟩ := hw
  exact spritePixel_le_one _ _

/-- Claim C9: every framebuffer cell always holds 0 or 1 (stated as
`≤ 1`): it holds for a freshly constructed display, after `cls` (all
cells zero), `clear_dirty` leaves the framebuffer untouched, and
`draw_sprite` preserves it because each touched cell is XORed with a
sprite bit that is itself 0 or 1. -/
theorem C9_framebuffer_binary :
    (∀ v ∈ FramebufferDisplay.new.framebuffer, v ≤ 1) ∧
    (∀ d : FramebufferDisplay, ∀ v ∈ (FramebufferDisplay.cls d).framebuffer, v ≤ 1) ∧
    (∀ d : FramebufferDisplay, (FramebufferDisplay.clear_dirty d).framebuffer
      = d.framebuffer) ∧
    (∀ (d : FramebufferDisplay) (x y base_address height : Nat) (mem : List Nat)
      (d' : FramebufferDisplay) (collision : Bool),
      (∀ v ∈ d.framebuffer, v ≤ 1) →
      d.draw_sprite x y base_address height mem = some (d', collision) →
      ∀ v ∈ d'.framebuffer, v ≤ 1) := by
  refine ⟨?_, ?_, fun d => rfl, ?_⟩
  · intro v hv
    rw [List.eq_of_mem_replicate hv]
    norm_num
  · intro d v hv
    rw [List.eq_of_mem_replicate hv]
    norm_num
  · intro d x y base_address height mem d' collision hcells hdraw
    rcases hsl : Memory.as_slice mem base_address height with _ | sprites
    · exfalso
      unfold FramebufferDisplay.draw_sprite at hdraw
      rw [hsl] at hdraw
      exact Option.noConfusion hdraw
    · rw [draw_sprite_eq_blit d x y base_address height mem sprites hsl] at hdraw
      simp only [Option.some.injEq, Prod.mk.injEq] at hdraw
      obtain ⟨hd', -⟩ := hdraw
      subst hd'
      exact blit_cells_le_one _ _ _ hcells (spriteWritesFrom_snd_le_one x y 0 sprites)

set_option maxRecDepth 2000 in
theorem C9_framebuffer_binary_witness :
    ∃ d' collision, FramebufferDisplay.new.draw_sprite 0 0 0 1 mem1 = some (d', collision) ∧
      ∀ v ∈ d'.framebuffer, v ≤ 1 := by
  cases heval : FramebufferDisplay.new.draw_sprite 0 0 0 1 mem1 with
  | none => exact absurd heval (by decide)
  | some p =>
    obtain ⟨d', collision⟩ := p
    exact ⟨d', collision, rfl,
      C9_framebuffer_binary.2.2.2 FramebufferDisplay.new 0 0 0 1 mem1 d' collision
        C9_framebuffer_binary.1 heval⟩


/-! ## Memory splice lemmas for the reset claim -/

theorem write_range_length (m s : List Nat) (base : Nat) (h : base + s.length ≤ m.length) :
    (Memory.write_range m base s).length = m.length := by
  simp only [Memory.write_range, List.length_append, List.length_take, List.length_drop]
  omega

theorem getD_write_range_left (m s : List Nat) (base j : Nat) (hj : j < base)
    (hb : base ≤ m.length) :
    (Memory.write_range m base s).getD j 0 = m.getD j 0 := by
  simp only [Memory.write_range, List.getD_eq_getElem?_getD]
  have h1 : j < (List.take base m ++ s).length := by
    simp only [List.length_append, List.length_take]
    omega
  have h2 : j < (List.take base m).length := by
    simp only [List.length_take]
    omega
  rw [List.getElem?_append_left h1, List.getElem?_append_left h2,
    List.getElem?_take_of_lt hj]

theorem getD_write_range_mid (m s : List Nat) (base j : Nat) (hj : j < s.length)
    (hb : base + s.length ≤ m.length) :
    (Memory.write_range m base s).getD (base + j) 0 = s.getD j 0 := by
  simp only [Memory.write_range, List.getD_eq_getElem?_getD]
  have h1 : base + j < (List.take base m ++ s).length := by
    simp only [List.length_append, List.length_take]
    omega
  rw [List.getElem?_append_left h1]
  have h2 : (List.take base m).length ≤ base + j := by
    simp only [List.length_take]
    omega
  rw [List.getElem?_append_right h2]
  have h3 : base + j - (List.take base m).length = j := by
    simp only [List.length_take]
    omega
  rw [h3]

theorem Memory.new_length : Memory.new.length = 4096 := by
  have hf : FONTSET.length = 80 := by decide
  rw [Memory.new, write_range_length]
  · rw [List.length_replicate]
    decide
  · rw [hf, List.length_replicate]
    decide

/-- Claim C8: after `Emulator.reset`, the framebuffer is entirely zero,
the initial flag is true again, the rebuilt interpreter is in power-on
state with program counter 0x200, and memory matches a fresh load of the
original ROM: it is the result of `Memory.copy_from_slice` of the stored
ROM at 0x200 over a fresh font-initialised memory (identical to the
memory `Emulator.new` builds), with the font table at 0x50 and the ROM
bytes at 0x200. -/
theorem C8_reset_power_on (e e' : Emulator) (h : e.reset = some e') :
    e'.cpu.display.framebuffer
        = List.replicate (FRAME_BUFFER_PIXEL_WIDTH * FRAME_BUFFER_PIXEL_HEIGHT) 0 ∧
    e'.is_initial_state = true ∧
    e'.cpu.pc = 0x200 ∧
    e'.cpu.v = List.replicate 16 0 ∧
    e'.cpu.i = 0 ∧
    e'.cpu.sp = 0 ∧
    e'.cpu.delay_timer = 0 ∧
    e'.cpu.sound_timer = 0 ∧
    e'.current_rom = e.current_rom ∧
    Memory.copy_from_slice Memory.new 0x200 e.current_rom = some e'.cpu.memory ∧
    (Emulator.new e'.cpu.display e.current_rom).map (fun e2 => e2.cpu.memory)
      = some e'.cpu.memory ∧
    (∀ j, j < e.current_rom.length →
      e'.cpu.memory.getD (0x200 + j) 0 = e.current_rom.getD j 0) ∧
    (∀ k, k < 80 → e'.cpu.memory.getD (FONTSET_BASE_ADDRESS + k) 0 = FONTSET.getD k 0) := by
  simp only [Emulator.reset, Option.map_eq_some'] at h
  obtain ⟨memory, hcopy, he'⟩ := h
  subst he'
  have hcopy' := hcopy
  simp only [Memory.copy_from_slice, Option.ite_none_right_eq_some, Option.some.injEq]
    at hcopy'
  obtain ⟨hbound, hmemory⟩ := hcopy'
  have hrom : ∀ j, j < e.current_rom.length →
      memory.getD (0x200 + j) 0 = e.current_rom.getD j 0 := by
    intro j hj
    rw [← hmemory]
    exact getD_write_range_mid Memory.new e.current_rom 0x200 j hj
      (by rw [Memory.new_length]; exact hbound)
  have hfont : ∀ k, k < 80 → memory.getD (FONTSET_BASE_ADDRESS + k) 0 = FONTSET.getD k 0 := by
    intro k hk
    have h1 : FONTSET_BASE_ADDRESS + k < 0x200 := by
      simp only [FONTSET_BASE_ADDRESS]
      omega
    rw [← hmemory,
      getD_write_range_left Memory.new e.current_rom 0x200 (FONTSET_BASE_ADDRESS + k) h1
        (by rw [Memory.new_length]; norm_num)]
    exact getD_write_range_mid (List.replicate MEMORY_SIZE 0) FONTSET FONTSET_BASE_ADDRESS
      k (by have : FONTSET.length = 80 := by decide
            omega)
      (by have : FONTSET.length = 80 := by decide
          rw [List.length_replicate]
          simp only [FONTSET_BASE_ADDRESS, MEMORY_SIZE]
          omega)
  refine ⟨rfl, rfl, rfl, rfl, rfl, rfl, rfl, rfl, rfl, ?_, ?_, hrom, hfont⟩
  · rw [hcopy]
    rfl
  · simp only [Emulator.new, hcopy, Option.map_some']
    rfl

theorem C8_reset_power_on_witness :
    ∃ e', em0.reset = some e' ∧ e'.is_initial_state = true ∧ e'.cpu.pc = 0x200 ∧
      e'.cpu.display.framebuffer
        = List.replicate (FRAME_BUFFER_PIXEL_WIDTH * FRAME_BUFFER_PIXEL_HEIGHT) 0 := by
  cases heval : em0.reset with
  | none =>
    have hs : em0.reset.isSome = true := by decide
    rw [heval] at hs
    exact Bool.noConfusion hs
  | some e' =>
    have h := C8_reset_power_on em0 e' heval
    exact ⟨e', rfl, h.2.1, h.2.2.1, h.1⟩

end Chip8
